import Mathlib

/-!
Shallow embedding of `src/mychatbot/src/components/AICHatbotInterface.jsx`.

The component is a single-threaded chat UI.  Its mutable state
(`messages`, `inputText`, `isListening`, `attachedFiles`, `isTyping`) is
modelled as a structure `ChatState`; the asynchronous `sendMessage`
function is split at its single suspension point (the awaited endpoint
call) into a synchronous prefix `sendMessageStart` and a continuation
`sendMessageFinish`, recombined into the atomic `sendMessage` for the
non-interleaved case.  Clock readings (`Date.now()`) and the endpoint
result are passed in explicitly.  A small event system (`Event`, `step`,
`run`) replays any interleaving of UI events and request completions.
-/

namespace Chatbot

/-- Metadata stored on a message for an attached file: the source keeps
`{ name: f.name, size: f.size }` only. -/
structure FileMeta where
  name : String
  size : Nat
deriving DecidableEq, Repr

/-- A staged file in `attachedFiles` (a browser File object; only the
`name` and `size` fields are ever read by the component). -/
structure FileRef where
  name : String
  size : Nat
deriving DecidableEq, Repr

/-- A chat message as built by the component: `id`, `text`, `sender`
(the literal strings `"user"` or `"bot"`), `timestamp`, and optional
attached-file metadata `files`. -/
structure Message where
  id : Nat
  text : String
  sender : String
  timestamp : Nat
  files : Option (List FileMeta) := none
deriving DecidableEq, Repr

/-- The synthetic greeting that seeds the store (lines 38-45). -/
def initialMessage : Message :=
  { id := 1
  , text := "Hello! I\x27m your AI assistant. How can I help you today?"
  , sender := "bot"
  , timestamp := 0
  , files := none }

/-- The component state: the five `useState` hooks. -/
structure ChatState where
  messages : List Message
  inputText : String
  isListening : Bool
  attachedFiles : List FileRef
  isTyping : Bool
deriving DecidableEq, Repr

/-- Initial component state: store holds exactly the greeting, input is
empty, nothing staged, no request in flight. -/
def initChatState : ChatState :=
  { messages := [initialMessage]
  , inputText := ""
  , isListening := false
  , attachedFiles := []
  , isTyping := false }

/-- Text of the configuration-error message appended when the API key is
missing (lines 56-68). -/
def configErrorTextMsg : String :=
  "API Error: The Gemini API key is missing. Please check your **.env.local** file and console for details."

/-- The configuration-error message; its id is `Date.now() + 2` at the
time `t` the effect runs. -/
def configErrorMessage (t : Nat) : Message :=
  { id := t + 2, text := configErrorTextMsg, sender := "bot", timestamp := t, files := none }

/-- The `useEffect` of lines 56-68: when the key is absent and the store
still has exactly one message, append the configuration-error message. -/
def keyMissingEffect (apiKeyPresent : Bool) (t : Nat) (s : ChatState) : ChatState :=
  if !apiKeyPresent && s.messages.length == 1 then
    { s with messages := s.messages ++ [configErrorMessage t] }
  else s

/-- One `{ text }` part of a history entry. -/
structure Part where
  text : String
deriving DecidableEq, Repr

/-- One `{ role, parts }` entry of the outbound history. -/
structure HistoryEntry where
  role : String
  parts : List Part
deriving DecidableEq, Repr

/-- Lines 153-159: `messages.slice(1).filter(msg => msg.text).map(...)`:
drop the greeting, keep messages with non-empty text, map sender to a
role and wrap the text in a single part. -/
def chatHistory (messages : List Message) : List HistoryEntry :=
  ((messages.drop 1).filter (fun msg => !msg.text.isEmpty)).map
    (fun msg =>
      { role := if msg.sender == "user" then "user" else "model"
      , parts := [{ text := msg.text }] })

/-- The request handed to the endpoint: the model identifier and history
given to `ai.chats.create` (lines 161-164) and the `message` content of
`chat.sendMessage` (lines 167, 178). -/
structure ChatRequest where
  model : String
  history : List HistoryEntry
  message : List String
deriving DecidableEq, Repr

/-- Leading and trailing whitespace removal on the character list. -/
def trimChars (l : List Char) : List Char :=
  ((l.dropWhile Char.isWhitespace).reverse.dropWhile Char.isWhitespace).reverse

/-- The JavaScript `String.prototype.trim()`: strip leading and trailing
whitespace.  (Structurally recursive so that it evaluates inside the
kernel, unlike `String.trim`.) -/
def jsTrim (s : String) : String := String.mk (trimChars s.data)

/-- The guard of line 128:
`!ai || (!inputText.trim() && attachedFiles.length === 0)`. -/
def sendMessageRejects (ai : Bool) (s : ChatState) : Bool :=
  !ai || ((jsTrim s.inputText).isEmpty && s.attachedFiles.length == 0)

/-- The user message of lines 132-142: id and timestamp from the entry
clock reading, text taken verbatim from the input buffer, file metadata
snapshot only when attachments are staged. -/
def mkUserMessage (t : Nat) (s : ChatState) : Message :=
  { id := t
  , text := s.inputText
  , sender := "user"
  , timestamp := t
  , files :=
      if s.attachedFiles.length > 0 then
        some (s.attachedFiles.map (fun f => { name := f.name, size := f.size }))
      else none }

/-- Synchronous prefix of `sendMessage` (lines 126-178, up to the
awaited endpoint call): check the guard; append the user message; clear
the input buffer and staged attachments; set `isTyping`; build the
request from the store as captured at entry.  Returns the new state and
the issued request, or `none` when the guard rejects. -/
def sendMessageStart (ai : Bool) (t : Nat) (s : ChatState) :
    ChatState × Option ChatRequest :=
  if sendMessageRejects ai s then (s, none)
  else
    ({ s with
        messages := s.messages ++ [mkUserMessage t s]
      , inputText := ""
      , attachedFiles := []
      , isTyping := true }
    , some
        { model := "gemini-2.5-flash"
        , history := chatHistory s.messages
        , message := [s.inputText] })

/-- Fixed text of the error message appended on request failure
(line 196). -/
def requestErrorText : String :=
  "Sorry, I ran into an error. Please check the browser console for details."

/-- Continuation of `sendMessage` after the awaited call (lines
180-203): on success append the trimmed response as a bot message; on
failure log the cause and append the fixed-text error message; either
way clear `isTyping`.  Returns the new state and the console log
entries. -/
def sendMessageFinish (res : Except String String) (t : Nat) (s : ChatState) :
    ChatState × List String :=
  match res with
  | Except.ok text =>
      ({ s with
          messages := s.messages ++
            [{ id := t + 1, text := jsTrim text, sender := "bot", timestamp := t, files := none }]
        , isTyping := false }
      , [])
  | Except.error e =>
      ({ s with
          messages := s.messages ++
            [{ id := t + 1, text := requestErrorText, sender := "bot", timestamp := t, files := none }]
        , isTyping := false }
      , ["Gemini API Error: " ++ e])

/-- Result of one atomic `sendMessage` call: the final state, the
request issued to the endpoint (if any), and the console log. -/
structure SendOutcome where
  state : ChatState
  request : Option ChatRequest
  log : List String
deriving DecidableEq, Repr

/-- The whole `sendMessage` call run without interleaving: the entry
clock reading is `t1`, the endpoint answers `res`, and the completion
clock reading is `t2`. -/
def sendMessage (ai : Bool) (t1 : Nat) (res : Except String String) (t2 : Nat)
    (s : ChatState) : SendOutcome :=
  match sendMessageStart ai t1 s with
  | (s1, none) => { state := s1, request := none, log := [] }
  | (s1, some req) =>
      let fin := sendMessageFinish res t2 s1
      { state := fin.1, request := some req, log := fin.2 }

/-- Commands issued to the platform speech-recognition engine. -/
inductive RecCommand
  | start
  | stop
deriving DecidableEq, Repr

/-- `toggleListening` (lines 101-110): when listening, stop the engine
(optional-chained, so no command when the capability is absent) and
clear the flag; otherwise start the engine (again optional-chained) and
set the flag.  Returns the new state and the engine commands issued. -/
def toggleListening (recognitionPresent : Bool) (s : ChatState) :
    ChatState × List RecCommand :=
  if s.isListening then
    ({ s with isListening := false }
    , if recognitionPresent then [RecCommand.stop] else [])
  else
    ({ s with isListening := true }
    , if recognitionPresent then [RecCommand.start] else [])

/-- `handleFileAttachment` (lines 112-117): append the selected files to
the staged list. -/
def handleFileAttachment (files : List FileRef) (prev : List FileRef) : List FileRef :=
  prev ++ files

/-- `removeFile` (lines 119-121): `prev.filter((_, i) => i !== index)`,
keep every entry whose position differs from `index`. -/
def removeFile (index : Nat) (prev : List FileRef) : List FileRef :=
  (prev.enum.filter (fun p => p.1 != index)).map (fun p => p.2)

/-- The environment of a session: whether the API key was present at
startup (so the client `ai` exists, line 30) and whether the platform
speech-recognition capability exists (line 74). -/
structure Env where
  ai : Bool
  recognitionPresent : Bool
deriving DecidableEq, Repr

/-- The whole-session state: the component state, the requests currently
outstanding at the endpoint, and the console log. -/
structure Sys where
  chat : ChatState
  pending : List ChatRequest
  log : List String
deriving DecidableEq, Repr

/-- A session starts with the component state alone: no request in
flight, nothing logged. -/
def initSys : Sys :=
  { chat := initChatState, pending := [], log := [] }

/-- Decidable equality for endpoint results. -/
instance exceptDecEq : DecidableEq (Except String String) := fun a b =>
  match a, b with
  | Except.ok x, Except.ok y =>
      if h : x = y then isTrue (by rw [h]) else isFalse (by simp [h])
  | Except.error x, Except.error y =>
      if h : x = y then isTrue (by rw [h]) else isFalse (by simp [h])
  | Except.ok _, Except.error _ => isFalse (by simp)
  | Except.error _, Except.ok _ => isFalse (by simp)

/-- Events of a session.  `submit t` runs the synchronous prefix of
`sendMessage` with clock reading `t`; `complete i res t` resumes the
`i`-th outstanding request with endpoint result `res` at clock reading
`t`.  The remaining events are the other UI handlers and the
speech-recognition callbacks. -/
inductive Event
  | typeInput (text : String)
  | attach (files : List FileRef)
  | removeAt (index : Nat)
  | submit (t : Nat)
  | complete (i : Nat) (res : Except String String) (t : Nat)
  | toggleMic
  | recResult (transcript : String)
  | recEnd
  | configEffect (t : Nat)
deriving DecidableEq, Repr

/-- One step of the session: dispatch an event against the current
state.  `submit` may push a request onto `pending`; `complete` removes
the finished request and runs the continuation; the recognition
callbacks only exist when the capability is present (lines 73-94). -/
def step (env : Env) (s : Sys) : Event → Sys
  | Event.typeInput text => { s with chat := { s.chat with inputText := text } }
  | Event.attach files =>
      { s with chat :=
          { s.chat with attachedFiles := handleFileAttachment files s.chat.attachedFiles } }
  | Event.removeAt index =>
      { s with chat :=
          { s.chat with attachedFiles := removeFile index s.chat.attachedFiles } }
  | Event.submit t =>
      match sendMessageStart env.ai t s.chat with
      | (c, none) => { s with chat := c }
      | (c, some req) => { s with chat := c, pending := s.pending ++ [req] }
  | Event.complete i res t =>
      if i < s.pending.length then
        let fin := sendMessageFinish res t s.chat
        { chat := fin.1, pending := s.pending.eraseIdx i, log := s.log ++ fin.2 }
      else s
  | Event.toggleMic =>
      { s with chat := (toggleListening env.recognitionPresent s.chat).1 }
  | Event.recResult transcript =>
      if env.recognitionPresent then
        { s with chat := { s.chat with inputText := transcript } }
      else s
  | Event.recEnd =>
      if env.recognitionPresent then
        { s with chat := { s.chat with isListening := false } }
      else s
  | Event.configEffect t => { s with chat := keyMissingEffect env.ai t s.chat }

/-- Replay a list of events from a state. -/
def run (env : Env) (s : Sys) (es : List Event) : Sys :=
  es.foldl (step env) s

/-- Environment with the API key present and the speech capability
available. -/
def envOk : Env := { ai := true, recognitionPresent := true }

/-!  Theorems.  -/

/-- Claim C1: a submit that passes the preconditions and whose endpoint
request succeeds with response text `txt` appends exactly two new
messages, in order: the user message carrying the submitted text, then
an assistant message whose text is `txt` trimmed; `isTyping` is false
when the call completes. -/
theorem submit_success_appends_two (s : ChatState) (t1 t2 : Nat) (txt : String)
    (h : sendMessageRejects true s = false) :
    (sendMessage true t1 (Except.ok txt) t2 s).state.messages =
      s.messages ++
        [mkUserMessage t1 s,
         { id := t2 + 1, text := jsTrim txt, sender := "bot", timestamp := t2, files := none }]
    ∧ (mkUserMessage t1 s).sender = "user"
    ∧ (mkUserMessage t1 s).text = s.inputText
    ∧ (sendMessage true t1 (Except.ok txt) t2 s).state.isTyping = false := by
  simp [sendMessage, sendMessageStart, sendMessageFinish, h, mkUserMessage]

/-- Witness for C1 at a concrete input. -/
theorem submit_success_appends_two_witness :
    sendMessageRejects true { initChatState with inputText := "Hello" } = false
    ∧ ((sendMessage true 10 (Except.ok " Hi there ") 20
          { initChatState with inputText := "Hello" }).state.messages =
        { initChatState with inputText := "Hello" }.messages ++
          [mkUserMessage 10 { initChatState with inputText := "Hello" },
           { id := 21, text := jsTrim " Hi there ", sender := "bot", timestamp := 20, files := none }]
      ∧ (mkUserMessage 10 { initChatState with inputText := "Hello" }).sender = "user"
      ∧ (mkUserMessage 10 { initChatState with inputText := "Hello" }).text =
          { initChatState with inputText := "Hello" }.inputText
      ∧ (sendMessage true 10 (Except.ok " Hi there ") 20
          { initChatState with inputText := "Hello" }).state.isTyping = false) :=
  ⟨by decide, submit_success_appends_two _ 10 20 " Hi there " (by decide)⟩

/-- Claim C2: a submit that passes the preconditions and whose endpoint
request fails appends exactly two new messages, user then the fixed-text
error assistant message; the cause is logged and `isTyping` ends
false. -/
theorem submit_failure_appends_two (s : ChatState) (t1 t2 : Nat) (e : String)
    (h : sendMessageRejects true s = false) :
    (sendMessage true t1 (Except.error e) t2 s).state.messages =
      s.messages ++
        [mkUserMessage t1 s,
         { id := t2 + 1, text := requestErrorText, sender := "bot", timestamp := t2, files := none }]
    ∧ (mkUserMessage t1 s).sender = "user"
    ∧ (sendMessage true t1 (Except.error e) t2 s).log = ["Gemini API Error: " ++ e]
    ∧ (sendMessage true t1 (Except.error e) t2 s).state.isTyping = false := by
  simp [sendMessage, sendMessageStart, sendMessageFinish, h, mkUserMessage]

/-- Witness for C2 at a concrete input. -/
theorem submit_failure_appends_two_witness :
    sendMessageRejects true { initChatState with inputText := "Hi" } = false
    ∧ ((sendMessage true 10 (Except.error "boom") 20
          { initChatState with inputText := "Hi" }).state.messages =
        { initChatState with inputText := "Hi" }.messages ++
          [mkUserMessage 10 { initChatState with inputText := "Hi" },
           { id := 21, text := requestErrorText, sender := "bot", timestamp := 20, files := none }]
      ∧ (mkUserMessage 10 { initChatState with inputText := "Hi" }).sender = "user"
      ∧ (sendMessage true 10 (Except.error "boom") 20
          { initChatState with inputText := "Hi" }).log = ["Gemini API Error: " ++ "boom"]
      ∧ (sendMessage true 10 (Except.error "boom") 20
          { initChatState with inputText := "Hi" }).state.isTyping = false) :=
  ⟨by decide, submit_failure_appends_two _ 10 20 "boom" (by decide)⟩

/-- Claim C3: a submit that proceeds past the preconditions hands the
endpoint a request whose history is built from the store as captured at
entry by dropping the first message and all empty-text messages; every
history entry comes from a non-greeting message with non-empty text,
with role `user` for user senders and `model` otherwise, and a single
text part holding that message's text. -/
theorem submit_history_shape (s : ChatState) (t1 t2 : Nat) (res : Except String String)
    (h : sendMessageRejects true s = false) :
    (sendMessage true t1 res t2 s).request =
      some { model := "gemini-2.5-flash", history := chatHistory s.messages
           , message := [s.inputText] }
    ∧ ∀ entry ∈ chatHistory s.messages, ∃ m,
        m ∈ s.messages.drop 1 ∧ m.text.isEmpty = false
        ∧ entry.role = (if m.sender == "user" then "user" else "model")
        ∧ entry.parts = [{ text := m.text }] := by
  constructor
  · cases res <;> simp [sendMessage, sendMessageStart, sendMessageFinish, h]
  · intro entry hmem
    simp only [chatHistory, List.mem_map, List.mem_filter] at hmem
    obtain ⟨m, ⟨hm, hne⟩, hentry⟩ := hmem
    exact ⟨m, hm, by simpa using hne, by simp [← hentry], by simp [← hentry]⟩

/-- Witness for C3 at a concrete input. -/
theorem submit_history_shape_witness :
    sendMessageRejects true
      { initChatState with
          inputText := "again"
        , messages := [initialMessage,
            { id := 5, text := "hey", sender := "user", timestamp := 5, files := none }] } = false
    ∧ ((sendMessage true 10 (Except.ok "ok") 20
          { initChatState with
              inputText := "again"
            , messages := [initialMessage,
                { id := 5, text := "hey", sender := "user", timestamp := 5, files := none }] }).request =
        some { model := "gemini-2.5-flash"
             , history := chatHistory [initialMessage,
                 { id := 5, text := "hey", sender := "user", timestamp := 5, files := none }]
             , message := ["again"] }
      ∧ ∀ entry ∈ chatHistory [initialMessage,
            { id := 5, text := "hey", sender := "user", timestamp := 5, files := none }], ∃ m,
          m ∈ [initialMessage,
            { id := 5, text := "hey", sender := "user", timestamp := 5, files := none }].drop 1
          ∧ m.text.isEmpty = false
          ∧ entry.role = (if m.sender == "user" then "user" else "model")
          ∧ entry.parts = [{ text := m.text }]) :=
  ⟨by decide, submit_history_shape _ 10 20 (Except.ok "ok") (by decide)⟩

/-- Claim C4: a submit with the client uninitialized, or with blank
(trim-empty) text and no staged attachments, is a no-op: the whole
component state is unchanged, no request is issued and nothing is
logged. -/
theorem submit_noop (ai : Bool) (s : ChatState) (t1 t2 : Nat) (res : Except String String)
    (h : ai = false ∨ ((jsTrim s.inputText).isEmpty = true ∧ s.attachedFiles = [])) :
    sendMessage ai t1 res t2 s = { state := s, request := none, log := [] } := by
  have hrej : sendMessageRejects ai s = true := by
    rcases h with h | ⟨h1, h2⟩
    · simp [sendMessageRejects, h]
    · simp [sendMessageRejects, h1, h2]
  simp [sendMessage, sendMessageStart, hrej]

/-- Witness for C4 at a concrete input: blank input, no attachments. -/
theorem submit_noop_witness :
    ((jsTrim initChatState.inputText).isEmpty = true ∧ initChatState.attachedFiles = [])
    ∧ sendMessage true 10 (Except.ok "x") 20 initChatState =
        { state := initChatState, request := none, log := [] } :=
  ⟨by decide, submit_noop true initChatState 10 20 (Except.ok "x") (Or.inr ⟨by decide, by decide⟩)⟩

/-- Claim C7: with the credential absent at startup the configuration
effect appends exactly one assistant configuration-error message, so the
store becomes `[greeting, configuration error]`; the effect never fires
twice; and every later submit is a no-op. -/
theorem missing_key_config_message (t u : Nat) :
    (keyMissingEffect false t initChatState).messages = [initialMessage, configErrorMessage t]
    ∧ (configErrorMessage t).sender = "bot"
    ∧ keyMissingEffect false u (keyMissingEffect false t initChatState) =
        keyMissingEffect false t initChatState
    ∧ ∀ (s : ChatState) (t1 t2 : Nat) (res : Except String String),
        sendMessage false t1 res t2 s = { state := s, request := none, log := [] } := by
  refine ⟨by simp [keyMissingEffect, initChatState], rfl, ?_, ?_⟩
  · simp [keyMissingEffect, initChatState]
  · intro s t1 t2 res
    simp [sendMessage, sendMessageStart, sendMessageRejects]

/-- `toggleListening` never touches the message store. -/
theorem toggleListening_messages (p : Bool) (c : ChatState) :
    (toggleListening p c).1.messages = c.messages := by
  by_cases h : c.isListening <;> simp [toggleListening, h]

/-- `toggleListening` never touches the typing flag. -/
theorem toggleListening_isTyping (p : Bool) (c : ChatState) :
    (toggleListening p c).1.isTyping = c.isTyping := by
  by_cases h : c.isListening <;> simp [toggleListening, h]

/-- Every event only appends to the message store. -/
theorem step_messages_append (env : Env) (s : Sys) (e : Event) :
    ∃ tail, (step env s e).chat.messages = s.chat.messages ++ tail := by
  cases e with
  | typeInput text => exact ⟨[], by simp [step]⟩
  | attach files => exact ⟨[], by simp [step]⟩
  | removeAt index => exact ⟨[], by simp [step]⟩
  | submit t =>
      by_cases h : sendMessageRejects env.ai s.chat
      · exact ⟨[], by simp [step, sendMessageStart, h]⟩
      · exact ⟨[mkUserMessage t s.chat], by simp [step, sendMessageStart, h]⟩
  | complete i res t =>
      by_cases h : i < s.pending.length
      · cases res with
        | ok text =>
            exact ⟨[{ id := t + 1, text := jsTrim text, sender := "bot", timestamp := t
                    , files := none }], by simp [step, h, sendMessageFinish]⟩
        | error e =>
            exact ⟨[{ id := t + 1, text := requestErrorText, sender := "bot", timestamp := t
                    , files := none }], by simp [step, h, sendMessageFinish]⟩
      · exact ⟨[], by simp [step, h]⟩
  | toggleMic => exact ⟨[], by simp [step, toggleListening_messages]⟩
  | recResult transcript =>
      by_cases h : env.recognitionPresent <;> exact ⟨[], by simp [step, h]⟩
  | recEnd =>
      by_cases h : env.recognitionPresent <;> exact ⟨[], by simp [step, h]⟩
  | configEffect t =>
      by_cases h : (!env.ai && s.chat.messages.length == 1) = true
      · exact ⟨[configErrorMessage t], by simp [step, keyMissingEffect, h]⟩
      · exact ⟨[], by simp [step, keyMissingEffect, h]⟩

/-- A whole replay only appends to the message store. -/
theorem run_messages_append (env : Env) (es : List Event) :
    ∀ s : Sys, ∃ tail, (run env s es).chat.messages = s.chat.messages ++ tail := by
  induction es with
  | nil => exact fun s => ⟨[], by simp [run]⟩
  | cons e es ih =>
      intro s
      obtain ⟨t1, h1⟩ := step_messages_append env s e
      obtain ⟨t2, h2⟩ := ih (step env s e)
      refine ⟨t1 ++ t2, ?_⟩
      have : run env s (e :: es) = run env (step env s e) es := by simp [run]
      rw [this, h2, h1, List.append_assoc]

/-- Claim C5: the store starts as exactly the synthetic greeting, every
event only appends messages at the end, and hence in every reachable
state the first message is the greeting. -/
theorem store_append_only :
    initSys.chat.messages = [initialMessage]
    ∧ (∀ (env : Env) (s : Sys) (e : Event), ∃ tail,
        (step env s e).chat.messages = s.chat.messages ++ tail)
    ∧ ∀ (env : Env) (es : List Event),
        (run env initSys es).chat.messages.head? = some initialMessage := by
  refine ⟨rfl, step_messages_append, ?_⟩
  intro env es
  obtain ⟨tail, h⟩ := run_messages_append env es initSys
  rw [h]
  rfl

/-- Whether an event is a submit. -/
def isSubmit : Event → Bool
  | Event.submit _ => true
  | _ => false

/-- A trace is sequential when every submit happens while no request is
outstanding (the discipline the send-button UI is meant to enforce). -/
def seqTraceB (env : Env) : Sys → List Event → Bool
  | _, [] => true
  | s, e :: es =>
      (!(isSubmit e) || s.pending.isEmpty) && seqTraceB env (step env s e) es

/-- At most one request outstanding, and the typing flag set while one
is. -/
def TypingInv (s : Sys) : Prop :=
  s.pending.length ≤ 1 ∧ (s.pending ≠ [] → s.chat.isTyping = true)

/-- One sequential step preserves `TypingInv`. -/
theorem step_typingInv (env : Env) (s : Sys) (e : Event)
    (hinv : TypingInv s) (hseq : isSubmit e = true → s.pending = []) :
    TypingInv (step env s e) := by
  obtain ⟨hlen, hty⟩ := hinv
  cases e with
  | typeInput text => exact ⟨by simpa [step] using hlen, by simpa [step] using hty⟩
  | attach files => exact ⟨by simpa [step] using hlen, by simpa [step] using hty⟩
  | removeAt index => exact ⟨by simpa [step] using hlen, by simpa [step] using hty⟩
  | submit t =>
      have hp : s.pending = [] := hseq rfl
      by_cases h : sendMessageRejects env.ai s.chat
      · refine ⟨by simp [step, sendMessageStart, h, hp], ?_⟩
        simp [step, sendMessageStart, h, hp]
      · refine ⟨by simp [step, sendMessageStart, h, hp], ?_⟩
        intro _
        simp [step, sendMessageStart, h]
  | complete i res t =>
      by_cases h : i < s.pending.length
      · have hone : s.pending.length = 1 := by omega
        have hi : i = 0 := by omega
        obtain ⟨x, hx⟩ := List.length_eq_one.mp hone
        refine ⟨?_, ?_⟩
        · simp [step, h, hx, hi, List.eraseIdx]
        · intro hne
          exact absurd (by simp [step, h, hx, hi, List.eraseIdx]) hne
      · exact ⟨by simpa [step, h] using hlen, by simpa [step, h] using hty⟩
  | toggleMic =>
      refine ⟨by simpa [step] using hlen, ?_⟩
      intro hne
      rw [show (step env s Event.toggleMic).chat.isTyping = s.chat.isTyping from by
        simp [step, toggleListening_isTyping]]
      exact hty (by simpa [step] using hne)
  | recResult transcript =>
      by_cases h : env.recognitionPresent <;>
        exact ⟨by simpa [step, h] using hlen, by simpa [step, h] using hty⟩
  | recEnd =>
      by_cases h : env.recognitionPresent <;>
        exact ⟨by simpa [step, h] using hlen, by simpa [step, h] using hty⟩
  | configEffect t =>
      refine ⟨by simpa [step] using hlen, ?_⟩
      intro hne
      rw [show (step env s (Event.configEffect t)).chat.isTyping = s.chat.isTyping from by
        by_cases h : (!env.ai && s.chat.messages.length == 1) = true <;>
          simp [step, keyMissingEffect, h]]
      exact hty (by simpa [step] using hne)

/-- A sequential replay preserves `TypingInv`. -/
theorem run_typingInv (env : Env) (es : List Event) :
    ∀ s : Sys, TypingInv s → seqTraceB env s es = true → TypingInv (run env s es) := by
  induction es with
  | nil => exact fun s h _ => by simpa [run] using h
  | cons e es ih =>
      intro s hinv hseq
      simp only [seqTraceB, Bool.and_eq_true, Bool.or_eq_true] at hseq
      obtain ⟨hg, hrest⟩ := hseq
      have hseq1 : isSubmit e = true → s.pending = [] := by
        intro hs
        rcases hg with hg | hg
        · rw [hs] at hg; cases hg
        · exact List.isEmpty_iff.mp hg
      have : run env s (e :: es) = run env (step env s e) es := by simp [run]
      rw [this]
      exact ih (step env s e) (step_typingInv env s e hinv hseq1) hrest

/-- Claim C6 (amended): in any session where no submit happens while a
request is outstanding, at most one request is ever outstanding and
`isTyping` is true whenever one is. -/
theorem typing_single_flight_sequential (env : Env) (es : List Event)
    (h : seqTraceB env initSys es = true) :
    (run env initSys es).pending.length ≤ 1
    ∧ ((run env initSys es).pending ≠ [] → (run env initSys es).chat.isTyping = true) :=
  run_typingInv env es initSys ⟨by simp [initSys], by simp [initSys]⟩ h

/-- Witness for the amended C6 at a concrete sequential trace. -/
theorem typing_single_flight_sequential_witness :
    seqTraceB envOk initSys
      [Event.typeInput "a", Event.submit 1, Event.complete 0 (Except.ok "y") 2] = true
    ∧ ((run envOk initSys
          [Event.typeInput "a", Event.submit 1, Event.complete 0 (Except.ok "y") 2]).pending.length ≤ 1
      ∧ ((run envOk initSys
            [Event.typeInput "a", Event.submit 1, Event.complete 0 (Except.ok "y") 2]).pending ≠ [] →
          (run envOk initSys
            [Event.typeInput "a", Event.submit 1,
              Event.complete 0 (Except.ok "y") 2]).chat.isTyping = true)) :=
  ⟨by decide, typing_single_flight_sequential envOk _ (by decide)⟩

/-- Counterexample to C6 as stated: typing into the input buffer while a
request is outstanding and submitting again leaves two requests
outstanding at once, so the claim fails on this reachable state. -/
theorem typing_single_flight_cex :
    ¬ ((((run envOk initSys
            [Event.typeInput "a", Event.submit 1, Event.typeInput "b",
              Event.submit 2]).pending ≠ [] →
          (run envOk initSys
            [Event.typeInput "a", Event.submit 1, Event.typeInput "b",
              Event.submit 2]).chat.isTyping = true)
        ∧ (run envOk initSys
            [Event.typeInput "a", Event.submit 1, Event.typeInput "b",
              Event.submit 2]).pending.length ≤ 1)) := by
  decide

/-- A message with empty text carries a non-empty attachment-metadata
list or is an assistant (bot) message. -/
def msgOk (m : Message) : Prop :=
  m.text = "" → (∃ l, m.files = some l ∧ l ≠ []) ∨ m.sender = "bot"

/-- A user message built past the guard satisfies `msgOk`: empty input
text forces staged attachments, which become the metadata snapshot. -/
theorem mkUserMessage_ok (ai : Bool) (t : Nat) (c : ChatState)
    (h : sendMessageRejects ai c = false) : msgOk (mkUserMessage t c) := by
  intro htext
  left
  have htext' : c.inputText = "" := htext
  have hempty : (jsTrim c.inputText).isEmpty = true := by
    rw [htext']
    decide
  have hflen : (c.attachedFiles.length == 0) = false := by
    simp only [sendMessageRejects, Bool.or_eq_false_iff, Bool.and_eq_false_iff] at h
    rcases h.2 with h2 | h2
    · rw [hempty] at h2
      cases h2
    · exact h2
  have hlen : 0 < c.attachedFiles.length := by
    simp only [beq_eq_false_iff_ne, ne_eq] at hflen
    omega
  refine ⟨c.attachedFiles.map (fun f => { name := f.name, size := f.size }), ?_, ?_⟩
  · simp [mkUserMessage, hlen]
  · intro hmap
    have hmaplen := congrArg List.length hmap
    simp only [List.length_map, List.length_nil] at hmaplen
    omega

/-- Every message in the store satisfies `msgOk`. -/
def MsgsOk (s : Sys) : Prop := ∀ m ∈ s.chat.messages, msgOk m

/-- One step preserves `MsgsOk`. -/
theorem step_msgsOk (env : Env) (s : Sys) (e : Event) (h : MsgsOk s) :
    MsgsOk (step env s e) := by
  cases e with
  | typeInput text => exact fun m hm => h m (by simpa [step] using hm)
  | attach files => exact fun m hm => h m (by simpa [step] using hm)
  | removeAt index => exact fun m hm => h m (by simpa [step] using hm)
  | submit t =>
      by_cases hr : sendMessageRejects env.ai s.chat
      · exact fun m hm => h m (by simpa [step, sendMessageStart, hr] using hm)
      · intro m hm
        have hm' : m ∈ s.chat.messages ++ [mkUserMessage t s.chat] := by
          simpa [step, sendMessageStart, hr] using hm
        rcases List.mem_append.mp hm' with h1 | h1
        · exact h m h1
        · rw [List.mem_singleton.mp h1]
          exact mkUserMessage_ok env.ai t s.chat (by simpa using hr)
  | complete i res t =>
      by_cases hc : i < s.pending.length
      · intro m hm
        cases res with
        | ok text =>
            have hm' : m ∈ s.chat.messages ++
                [{ id := t + 1, text := jsTrim text, sender := "bot", timestamp := t
                 , files := none }] := by
              simpa [step, hc, sendMessageFinish] using hm
            rcases List.mem_append.mp hm' with h1 | h1
            · exact h m h1
            · rw [List.mem_singleton.mp h1]
              intro _
              right
              rfl
        | error e =>
            have hm' : m ∈ s.chat.messages ++
                [{ id := t + 1, text := requestErrorText, sender := "bot", timestamp := t
                 , files := none }] := by
              simpa [step, hc, sendMessageFinish] using hm
            rcases List.mem_append.mp hm' with h1 | h1
            · exact h m h1
            · rw [List.mem_singleton.mp h1]
              intro _
              right
              rfl
      · exact fun m hm => h m (by simpa [step, hc] using hm)
  | toggleMic =>
      exact fun m hm => h m (by simpa [step, toggleListening_messages] using hm)
  | recResult transcript =>
      by_cases hr : env.recognitionPresent <;>
        exact fun m hm => h m (by simpa [step, hr] using hm)
  | recEnd =>
      by_cases hr : env.recognitionPresent <;>
        exact fun m hm => h m (by simpa [step, hr] using hm)
  | configEffect t =>
      by_cases hg : (!env.ai && s.chat.messages.length == 1) = true
      · intro m hm
        have hm' : m ∈ s.chat.messages ++ [configErrorMessage t] := by
          simpa [step, keyMissingEffect, hg] using hm
        rcases List.mem_append.mp hm' with h1 | h1
        · exact h m h1
        · rw [List.mem_singleton.mp h1]
          intro _
          right
          rfl
      · exact fun m hm => h m (by simpa [step, keyMissingEffect, hg] using hm)

/-- A whole replay preserves `MsgsOk`. -/
theorem run_msgsOk (env : Env) (es : List Event) :
    ∀ s : Sys, MsgsOk s → MsgsOk (run env s es) := by
  induction es with
  | nil => exact fun s h => by simpa [run] using h
  | cons e es ih =>
      intro s h
      have hrun : run env s (e :: es) = run env (step env s e) es := by simp [run]
      rw [hrun]
      exact ih _ (step_msgsOk env s e h)

/-- Claim C8 (amended): every message ever present in the store with
empty text either carries a non-empty attachment-metadata list or is an
assistant message (only a success reply whose endpoint text trims to
empty produces the latter with no attachments). -/
theorem empty_text_attachments_amended (env : Env) (es : List Event) (m : Message)
    (hm : m ∈ (run env initSys es).chat.messages) (ht : m.text = "") :
    (∃ l, m.files = some l ∧ l ≠ []) ∨ m.sender = "bot" := by
  refine run_msgsOk env es initSys ?_ m hm ht
  intro m' hm' ht'
  have hmg : m' = initialMessage := by simpa [initSys, initChatState] using hm'
  rw [hmg] at ht'
  exact absurd ht' (by decide)

/-- Witness for the amended C8: a submit with empty text and one staged
attachment yields a user message with empty text and attachment
metadata. -/
theorem empty_text_attachments_amended_witness :
    ({ id := 5, text := "", sender := "user", timestamp := 5
     , files := some [{ name := "a.txt", size := 3 }] } : Message) ∈
        (run envOk initSys
          [Event.attach [{ name := "a.txt", size := 3 }], Event.submit 5]).chat.messages
    ∧ ({ id := 5, text := "", sender := "user", timestamp := 5
       , files := some [{ name := "a.txt", size := 3 }] } : Message).text = ""
    ∧ ((∃ l, ({ id := 5, text := "", sender := "user", timestamp := 5
              , files := some [{ name := "a.txt", size := 3 }] } : Message).files = some l ∧ l ≠ [])
        ∨ ({ id := 5, text := "", sender := "user", timestamp := 5
           , files := some [{ name := "a.txt", size := 3 }] } : Message).sender = "bot") :=
  ⟨by decide, by decide,
    empty_text_attachments_amended envOk
      [Event.attach [{ name := "a.txt", size := 3 }], Event.submit 5] _ (by decide) (by decide)⟩

/-- Counterexample to C8 as stated: when the endpoint answers with
whitespace only, the appended assistant message has empty text and no
attachments, yet it is present in the store. -/
theorem empty_text_attachments_cex :
    ({ id := 21, text := "", sender := "bot", timestamp := 20, files := none } : Message) ∈
      (run envOk initSys
        [Event.typeInput "hi", Event.submit 10,
          Event.complete 0 (Except.ok "  ") 20]).chat.messages := by
  decide

/-- The `Date.now()` reading an event consumes, when it consumes one. -/
def eventClock : Event → Option Nat
  | Event.submit t => some t
  | Event.complete _ _ t => some t
  | Event.configEffect t => some t
  | _ => none

/-- Clock discipline: every reading is at least the running bound, and
each reading pushes the bound three past it (ids use offsets 0, 1 and
2 from a reading). -/
def spacedB : Nat → List Event → Bool
  | _, [] => true
  | c, e :: es =>
      match eventClock e with
      | none => spacedB c es
      | some t => Nat.ble c t && spacedB (t + 3) es

/-- Ids in the store are pairwise distinct and all below the bound. -/
def IdInv (c : Nat) (s : Sys) : Prop :=
  (s.chat.messages.Pairwise fun a b => a.id ≠ b.id)
    ∧ ∀ m ∈ s.chat.messages, m.id < c

/-- The bound of `IdInv` can be relaxed upward. -/
theorem idInv_mono {c c' : Nat} {s : Sys} (h : IdInv c s) (hc : c ≤ c') : IdInv c' s :=
  ⟨h.1, fun m hm => Nat.lt_of_lt_of_le (h.2 m hm) hc⟩

/-- Appending one message whose id is at least the bound keeps ids
pairwise distinct and bumps the bound past the new id. -/
theorem idInv_snoc {c : Nat} {l : List Message} (m : Message) (c' : Nat)
    (hp : l.Pairwise fun a b => a.id ≠ b.id) (hb : ∀ x ∈ l, x.id < c)
    (hm : c ≤ m.id) (hm' : m.id < c') (hcc' : c ≤ c') :
    ((l ++ [m]).Pairwise fun a b => a.id ≠ b.id) ∧ ∀ x ∈ l ++ [m], x.id < c' := by
  constructor
  · rw [List.pairwise_append]
    refine ⟨hp, List.pairwise_singleton _ _, ?_⟩
    intro a ha b hbm
    rw [List.mem_singleton.mp hbm]
    exact Nat.ne_of_lt (Nat.lt_of_lt_of_le (hb a ha) hm)
  · intro x hx
    rcases List.mem_append.mp hx with h1 | h1
    · exact Nat.lt_of_lt_of_le (hb x h1) hcc'
    · rw [List.mem_singleton.mp h1]
      exact hm'

/-- A step that consumes no clock reading preserves `IdInv` at the same
bound. -/
theorem step_idInv_noclock (env : Env) (s : Sys) (e : Event) (c : Nat)
    (h : IdInv c s) (hc : eventClock e = none) : IdInv c (step env s e) := by
  obtain ⟨hp, hb⟩ := h
  cases e with
  | submit t => cases hc
  | complete i res t => cases hc
  | configEffect t => cases hc
  | typeInput text =>
      exact ⟨by simpa [step] using hp, fun m hm => hb m (by simpa [step] using hm)⟩
  | attach files =>
      exact ⟨by simpa [step] using hp, fun m hm => hb m (by simpa [step] using hm)⟩
  | removeAt index =>
      exact ⟨by simpa [step] using hp, fun m hm => hb m (by simpa [step] using hm)⟩
  | toggleMic =>
      exact ⟨by simpa [step, toggleListening_messages] using hp,
        fun m hm => hb m (by simpa [step, toggleListening_messages] using hm)⟩
  | recResult transcript =>
      by_cases hr : env.recognitionPresent <;>
        exact ⟨by simpa [step, hr] using hp, fun m hm => hb m (by simpa [step, hr] using hm)⟩
  | recEnd =>
      by_cases hr : env.recognitionPresent <;>
        exact ⟨by simpa [step, hr] using hp, fun m hm => hb m (by simpa [step, hr] using hm)⟩

/-- A step that consumes an in-discipline clock reading `t` preserves
`IdInv`, with the bound pushed to `t + 3`. -/
theorem step_idInv_clock (env : Env) (s : Sys) (e : Event) (c t : Nat)
    (h : IdInv c s) (hc : eventClock e = some t) (hct : c ≤ t) :
    IdInv (t + 3) (step env s e) := by
  obtain ⟨hp, hb⟩ := h
  have hmono : IdInv (t + 3) s := idInv_mono ⟨hp, hb⟩ (by omega)
  cases e with
  | typeInput text => cases hc
  | attach files => cases hc
  | removeAt index => cases hc
  | toggleMic => cases hc
  | recResult transcript => cases hc
  | recEnd => cases hc
  | submit u =>
      have htu : u = t := by simpa [eventClock] using hc
      subst htu
      by_cases hr : sendMessageRejects env.ai s.chat
      · exact ⟨by simpa [step, sendMessageStart, hr] using hmono.1,
          fun m hm => hmono.2 m (by simpa [step, sendMessageStart, hr] using hm)⟩
      · have happ := idInv_snoc (c := c) (mkUserMessage u s.chat) (u + 3) hp hb
          (by simp only [mkUserMessage]; omega) (by simp [mkUserMessage]) (by omega)
        exact ⟨by simpa [step, sendMessageStart, hr] using happ.1,
          fun m hm => happ.2 m (by simpa [step, sendMessageStart, hr] using hm)⟩
  | complete i res u =>
      have htu : u = t := by simpa [eventClock] using hc
      subst htu
      by_cases hlt : i < s.pending.length
      · cases res with
        | ok text =>
            have happ := idInv_snoc (c := c)
              ({ id := u + 1, text := jsTrim text, sender := "bot", timestamp := u
               , files := none } : Message) (u + 3) hp hb (by simp only []; omega) (by simp)
              (by omega)
            exact ⟨by simpa [step, hlt, sendMessageFinish] using happ.1,
              fun m hm => happ.2 m (by simpa [step, hlt, sendMessageFinish] using hm)⟩
        | error e =>
            have happ := idInv_snoc (c := c)
              ({ id := u + 1, text := requestErrorText, sender := "bot", timestamp := u
               , files := none } : Message) (u + 3) hp hb (by simp only []; omega) (by simp)
              (by omega)
            exact ⟨by simpa [step, hlt, sendMessageFinish] using happ.1,
              fun m hm => happ.2 m (by simpa [step, hlt, sendMessageFinish] using hm)⟩
      · exact ⟨by simpa [step, hlt] using hmono.1,
          fun m hm => hmono.2 m (by simpa [step, hlt] using hm)⟩
  | configEffect u =>
      have htu : u = t := by simpa [eventClock] using hc
      subst htu
      by_cases hg : (!env.ai && s.chat.messages.length == 1) = true
      · have happ := idInv_snoc (c := c) (configErrorMessage u) (u + 3) hp hb
          (by simp only [configErrorMessage]; omega) (by simp [configErrorMessage])
          (by omega)
        exact ⟨by simpa [step, keyMissingEffect, hg] using happ.1,
          fun m hm => happ.2 m (by simpa [step, keyMissingEffect, hg] using hm)⟩
      · exact ⟨by simpa [step, keyMissingEffect, hg] using hmono.1,
          fun m hm => hmono.2 m (by simpa [step, keyMissingEffect, hg] using hm)⟩

/-- A replay under the clock discipline keeps ids pairwise distinct. -/
theorem run_idInv (env : Env) (es : List Event) :
    ∀ (c : Nat) (s : Sys), IdInv c s → spacedB c es = true →
      (run env s es).chat.messages.Pairwise fun a b => a.id ≠ b.id := by
  induction es with
  | nil =>
      intro c s h _
      simpa [run] using h.1
  | cons e es ih =>
      intro c s h hsp
      have hrun : run env s (e :: es) = run env (step env s e) es := by simp [run]
      rw [hrun]
      cases hc : eventClock e with
      | none =>
          have hsp' : spacedB c es = true := by
            rw [show spacedB c (e :: es) = spacedB c es from by simp [spacedB, hc]] at hsp
            exact hsp
          exact ih c _ (step_idInv_noclock env s e c h hc) hsp'
      | some t =>
          have hsp2 : Nat.ble c t = true ∧ spacedB (t + 3) es = true := by
            rw [show spacedB c (e :: es) = (Nat.ble c t && spacedB (t + 3) es) from by
              simp [spacedB, hc]] at hsp
            simp only [Bool.and_eq_true] at hsp
            exact hsp
          exact ih (t + 3) _
            (step_idInv_clock env s e c t h hc (Nat.le_of_ble_eq_true hsp2.1)) hsp2.2

/-- Claim C9 (amended): ids are unique across the whole session whenever
successive clock readings are spaced at least three apart and start
above the greeting id: under that discipline the messages of every
reachable state have pairwise distinct ids. -/
theorem unique_ids_spaced (env : Env) (es : List Event)
    (h : spacedB 2 es = true) :
    (run env initSys es).chat.messages.Pairwise fun a b => a.id ≠ b.id :=
  run_idInv env es 2 initSys ⟨by decide, by decide⟩ h

/-- Witness for the amended C9 at a concrete spaced trace. -/
theorem unique_ids_spaced_witness :
    spacedB 2 [Event.typeInput "a", Event.submit 10, Event.complete 0 (Except.ok "x") 20] = true
    ∧ ((run envOk initSys
        [Event.typeInput "a", Event.submit 10,
          Event.complete 0 (Except.ok "x") 20]).chat.messages.Pairwise fun a b => a.id ≠ b.id) :=
  ⟨by decide, unique_ids_spaced envOk _ (by decide)⟩

/-- Counterexample to C9 as stated: with clock readings 5, 5, 6 the
session produces ids 1, 5, 6, 6 — the assistant reply and the next user
message are distinct messages sharing id 6. -/
theorem unique_ids_cex :
    ((run envOk initSys
        [Event.typeInput "a", Event.submit 5, Event.complete 0 (Except.ok "x") 5,
          Event.typeInput "b", Event.submit 6]).chat.messages.map fun m => m.id) = [1, 5, 6, 6]
    ∧ (run envOk initSys
        [Event.typeInput "a", Event.submit 5, Event.complete 0 (Except.ok "x") 5,
          Event.typeInput "b", Event.submit 6]).chat.messages.get? 2 ≠
      (run envOk initSys
        [Event.typeInput "a", Event.submit 5, Event.complete 0 (Except.ok "x") 5,
          Event.typeInput "b", Event.submit 6]).chat.messages.get? 3
    ∧ ¬ ((run envOk initSys
        [Event.typeInput "a", Event.submit 5, Event.complete 0 (Except.ok "x") 5,
          Event.typeInput "b", Event.submit 6]).chat.messages.Pairwise fun a b => a.id ≠ b.id) := by
  refine ⟨by decide, by decide, by decide⟩

/-- Claim C10 (amended): when the speech capability is absent,
activating the dictation control issues no command to the recognition
engine, but it still toggles `isListening`; nothing else changes. -/
theorem dictation_absent_amended (s : ChatState) :
    toggleListening false s = ({ s with isListening := !s.isListening }, []) := by
  by_cases h : s.isListening <;> simp [toggleListening, h]

/-- Counterexample to C10 as stated: with the capability absent and
`isListening` false, activating the control flips `isListening` to
true — an observable state change, so the control is not a no-op. -/
theorem dictation_absent_cex :
    (toggleListening false initChatState).1.isListening = true
    ∧ (toggleListening false initChatState).1 ≠ initChatState := by
  decide

end Chatbot
